import Mathlib

/-!
# RiscV-Emulator: a shallow embedding of `src/emulator.cpp`

Machine integers are natural numbers (unsigned) or integers (signed) with the
wrap-around of the C++ types written out as `% 2 ^ 32`.  The emulator object is
a record that every member function takes and returns.  Text written to `cout`
(trace lines, diagnostics) does not influence the state and is left out.
-/

namespace emulation

/-! ## Integer conversions of the C++ code -/

/-- Conversion of a signed value to `uint32_t`: the residue modulo `2 ^ 32`. -/
def toUInt32 (i : Int) : Nat := (i % 2 ^ 32).toNat

/-- The cast `(int32_t) x` of a `uint32_t` value: its two's-complement reading. -/
def toInt32 (x : Nat) : Int :=
  if x % 2 ^ 32 < 2 ^ 31 then ((x % 2 ^ 32 : Nat) : Int) else ((x % 2 ^ 32 : Nat) : Int) - 2 ^ 32

/-- Conversion of an unsigned value to `int16_t`: the low sixteen bits, read in
two's complement. -/
def toInt16 (x : Nat) : Int :=
  if x % 2 ^ 16 < 2 ^ 15 then ((x % 2 ^ 16 : Nat) : Int) else ((x % 2 ^ 16 : Nat) : Int) - 2 ^ 16

/-- Conversion of a `bool` to `uint32_t`. -/
def boolToUInt32 (b : Bool) : Nat := if b then 1 else 0

/-! ## Constants of `riscv.h` -/

/-- Modelled from the spec: `riscv.h` is not among the sources; the opcode field
is the low seven bits of the word. -/
abbrev OPCODE_WIDTH : Nat := 7
/-- Modelled from the spec: `riscv.h` is not among the sources; RV32I opcode of
the register-immediate class, `0010011`. -/
abbrev OP_IMM : Nat := 0b0010011
/-- Modelled from the spec: `riscv.h` is not among the sources; RV32I opcode of
the register-register class, `0110011`. -/
abbrev OP_REG : Nat := 0b0110011
/-- Modelled from the spec: `riscv.h` is not among the sources; RV32I opcode of
LUI, `0110111`. -/
abbrev OP_LUI : Nat := 0b0110111
/-- Modelled from the spec: `riscv.h` is not among the sources; RV32I opcode of
AUIPC, `0010111`. -/
abbrev OP_AUIPC : Nat := 0b0010111
/-- Modelled from the spec: `riscv.h` is not among the sources; RV32I opcode of
JALR, `1100111`. -/
abbrev OP_JALR : Nat := 0b1100111
/-- Modelled from the spec: `riscv.h` is not among the sources; RV32I opcode of
the conditional branches, `1100011`.  No function of `emulator.cpp` mentions
this constant. -/
abbrev OP_BRANCH : Nat := 0b1100011

/-- Modelled from the spec: `riscv.h` is not among the sources; the 3-bit
function code sits at bits 14:12. -/
abbrev FUNCT3_OFFSET : Nat := 12
/-- Modelled from the spec: `riscv.h` is not among the sources; the
register-immediate format keeps its immediate in the top twelve bits. -/
abbrev I_IMM_OFFSET : Nat := 20
/-- Modelled from the spec: `riscv.h` is not among the sources; the
upper-immediate format keeps its immediate in bits 31:12. -/
abbrev U_IMM_OFFSET : Nat := 12
/-- Modelled from the spec: `riscv.h` is not among the sources; RV32I places
`rs1` at bits 19:15. -/
abbrev RS1_OFFSET : Nat := 15
/-- Modelled from the spec: `riscv.h` is not among the sources; RV32I places
`rs2` at bits 24:20. -/
abbrev RS2_OFFSET : Nat := 20
/-- Modelled from the spec: `riscv.h` is not among the sources; RV32I places
`rd` at bits 11:7. -/
abbrev RD_OFFSET : Nat := 7
/-- Modelled from the spec: `riscv.h` is not among the sources; a register index
has five bits (indices 0 to 31). -/
abbrev REG_INDEX_BITS : Nat := 5
/-- Modelled from the spec: `riscv.h` is not among the sources; a shift amount is
the low five bits of its operand. -/
abbrev SHIFT_AMOUNT_SIZE : Nat := 5
/-- Modelled from the spec: `riscv.h` is not among the sources; the register file
has 32 registers. -/
abbrev REG_COUNT : Nat := 32

/-- Modelled from the spec: `riscv.h` is not among the sources; RV32I function
code of ADD/SUB/ADDI, `000`. -/
abbrev ADD_FUNCT3 : Nat := 0b000
/-- Modelled from the spec: `riscv.h` is not among the sources; RV32I function
code of SLL/SLLI, `001`. -/
abbrev SLL_FUNCT3 : Nat := 0b001
/-- Modelled from the spec: `riscv.h` is not among the sources; RV32I function
code of SLT/SLTI, `010`. -/
abbrev SLT_FUNCT3 : Nat := 0b010
/-- Modelled from the spec: `riscv.h` is not among the sources; RV32I function
code of SLTU/SLTIU, `011`. -/
abbrev SLTU_FUNCT3 : Nat := 0b011
/-- Modelled from the spec: `riscv.h` is not among the sources; RV32I function
code of XOR/XORI, `100`. -/
abbrev XOR_FUNCT3 : Nat := 0b100
/-- Modelled from the spec: `riscv.h` is not among the sources; RV32I function
code of the right shifts, `101`. -/
abbrev SR_FUNCT3 : Nat := 0b101
/-- Modelled from the spec: `riscv.h` is not among the sources; RV32I function
code of OR/ORI, `110`. -/
abbrev OR_FUNCT3 : Nat := 0b110
/-- Modelled from the spec: `riscv.h` is not among the sources; RV32I function
code of AND/ANDI, `111`. -/
abbrev AND_FUNCT3 : Nat := 0b111

/-- Modelled from the spec: `riscv.h` is not among the sources; branch function
code of BEQ, `000`. -/
abbrev BEQ_FUNCT3 : Nat := 0b000
/-- Modelled from the spec: `riscv.h` is not among the sources; branch function
code of BNE, `001`. -/
abbrev BNE_FUNCT3 : Nat := 0b001
/-- Modelled from the spec: `riscv.h` is not among the sources; branch function
code of BLT, `100`. -/
abbrev BLT_FUNCT3 : Nat := 0b100
/-- Modelled from the spec: `riscv.h` is not among the sources; branch function
code of BGE, `101`. -/
abbrev BGE_FUNCT3 : Nat := 0b101
/-- Modelled from the spec: `riscv.h` is not among the sources; branch function
code of BLTU, `110`. -/
abbrev BLTU_FUNCT3 : Nat := 0b110
/-- Modelled from the spec: `riscv.h` is not among the sources; branch function
code of BGEU, `111`. -/
abbrev BGEU_FUNCT3 : Nat := 0b111

/-! ## Bit-field utilities (`emulator.cpp` lines 10-29) -/

/-- Source `getLSBMask`: the mask of the low `numberOfBits` bits, all ones from
32 bits on.  Below 32 the shifted one fits in 32 bits, so nothing wraps. -/
def getLSBMask (numberOfBits : Nat) : Nat :=
  if numberOfBits < 32 then (1 <<< numberOfBits) - 1 else 0xFFFFFFFF

/-- Source `bitMask`: the mask of bits `start..stop`, both inclusive (the source
calls the second parameter `end`).  The outer shift is a `uint32_t` shift. -/
def bitMask (start stop : Nat) : Nat :=
  let length := stop - start + 1
  (((1 <<< length) - 1) <<< start) % 2 ^ 32

/-- Source `BImm`: the four bit groups of the branch format are moved into place
in `uint32_t` arithmetic and the result is returned as an `int16_t`. -/
def BImm (instruction : Nat) : Int :=
  toInt16
    (((instruction &&& bitMask 8 11) >>> 7) |||
     ((instruction &&& bitMask 25 30) >>> 20) |||
     (((instruction &&& bitMask 7 7) <<< 4) % 2 ^ 32) |||
     ((instruction &&& bitMask 31 31) >>> 19))

/-! ## The emulator object -/

/-- Modelled from the spec: `emulator.h`, which declares the class, is not among
the sources; the data members are those `emulator.cpp` uses.  `program` is a raw
byte pointer without a length: it is the byte found at each offset.  `pc` is an
unsigned 32-bit byte offset, `registers` the `vector<uint32_t>`, and
`instructions_executed` a count that only grows, taken as a natural number. -/
structure Emulator where
  program : Nat → Nat
  pc : Nat
  registers : List Nat
  instructions_executed : Nat

/-- The read `registers[i]`. -/
def readReg (registers : List Nat) (i : Nat) : Nat := registers.getD i 0

/-- The assignment `registers[i] = v`. -/
def writeReg (registers : List Nat) (i v : Nat) : List Nat := registers.set i v

/-- The constructor `Emulator::Emulator(program, initialPC)`. -/
def Emulator.create (program : Nat → Nat) (initialPC : Nat) : Emulator :=
  { program := program
    pc := initialPC
    registers := List.replicate REG_COUNT 0
    instructions_executed := 0 }

/-- Source `Emulator::executeIType`. -/
def Emulator.executeIType (e : Emulator) (instruction : Nat) : Emulator :=
  let funct3 := (instruction >>> FUNCT3_OFFSET) &&& getLSBMask 3
  let immediate : Int := toInt32 instruction >>> I_IMM_OFFSET
  let rs1 := (instruction >>> RS1_OFFSET) &&& getLSBMask REG_INDEX_BITS
  let rd := (instruction >>> RD_OFFSET) &&& getLSBMask REG_INDEX_BITS
  let funct7 := instruction >>> 25
  let shiftAmount := toUInt32 immediate &&& getLSBMask 5
  let registers :=
    if funct3 = ADD_FUNCT3 then
      writeReg e.registers rd ((readReg e.registers rs1 + toUInt32 immediate) % 2 ^ 32)
    else if funct3 = AND_FUNCT3 then
      writeReg e.registers rd (readReg e.registers rs1 &&& toUInt32 immediate)
    else if funct3 = OR_FUNCT3 then
      writeReg e.registers rd (readReg e.registers rs1 ||| toUInt32 immediate)
    else if funct3 = XOR_FUNCT3 then
      writeReg e.registers rd (readReg e.registers rs1 ^^^ toUInt32 immediate)
    else if funct3 = SLT_FUNCT3 then
      writeReg e.registers rd
        (boolToUInt32 (decide (toInt32 (readReg e.registers rs1) < immediate)))
    else if funct3 = SLTU_FUNCT3 then
      writeReg e.registers rd
        (boolToUInt32 (decide (readReg e.registers rs1 < toUInt32 immediate)))
    else if funct3 = SR_FUNCT3 then
      if funct7 = 0b0100000 then
        writeReg e.registers rd (toUInt32 (toInt32 (readReg e.registers rs1) >>> shiftAmount))
      else if funct7 = 0b0000000 then
        writeReg e.registers rd (readReg e.registers rs1 >>> shiftAmount)
      else e.registers
    else if funct3 = SLL_FUNCT3 then
      writeReg e.registers rd ((readReg e.registers rs1 <<< shiftAmount) % 2 ^ 32)
    else e.registers
  { e with registers := registers, pc := (e.pc + 4) % 2 ^ 32 }

/-- Source `Emulator::executeRType`. -/
def Emulator.executeRType (e : Emulator) (instruction : Nat) : Emulator :=
  let funct3 := (instruction >>> FUNCT3_OFFSET) &&& getLSBMask 3
  let rs2 := (instruction >>> RS2_OFFSET) &&& getLSBMask REG_INDEX_BITS
  let rs1 := (instruction >>> RS1_OFFSET) &&& getLSBMask REG_INDEX_BITS
  let rd := (instruction >>> RD_OFFSET) &&& getLSBMask REG_INDEX_BITS
  let funct7 := instruction >>> 25
  let shiftAmount := readReg e.registers rs2 &&& getLSBMask SHIFT_AMOUNT_SIZE
  let registers :=
    if funct3 = ADD_FUNCT3 then
      if funct7 = 0b0100000 then
        writeReg e.registers rd
          (toUInt32 ((readReg e.registers rs1 : Int) - (readReg e.registers rs2 : Int)))
      else if funct7 = 0b0000000 then
        writeReg e.registers rd ((readReg e.registers rs1 + readReg e.registers rs2) % 2 ^ 32)
      else e.registers
    else if funct3 = AND_FUNCT3 then
      writeReg e.registers rd (readReg e.registers rs1 &&& readReg e.registers rs2)
    else if funct3 = OR_FUNCT3 then
      writeReg e.registers rd (readReg e.registers rs1 ||| readReg e.registers rs2)
    else if funct3 = XOR_FUNCT3 then
      writeReg e.registers rd (readReg e.registers rs1 ^^^ readReg e.registers rs2)
    else if funct3 = SLT_FUNCT3 then
      writeReg e.registers rd
        (boolToUInt32
          (decide (toInt32 (readReg e.registers rs1) < toInt32 (readReg e.registers rs2))))
    else if funct3 = SLTU_FUNCT3 then
      writeReg e.registers rd
        (boolToUInt32 (decide (readReg e.registers rs1 < readReg e.registers rs2)))
    else if funct3 = SLL_FUNCT3 then
      writeReg e.registers rd ((readReg e.registers rs1 <<< shiftAmount) % 2 ^ 32)
    else if funct3 = SR_FUNCT3 then
      if funct7 = 0b0100000 then
        writeReg e.registers rd (toUInt32 (toInt32 (readReg e.registers rs1) >>> shiftAmount))
      else
        writeReg e.registers rd (readReg e.registers rs1 >>> shiftAmount)
    else e.registers
  { e with registers := registers, pc := (e.pc + 4) % 2 ^ 32 }

/-- Source `Emulator::executeLUI`. -/
def Emulator.executeLUI (e : Emulator) (instruction : Nat) : Emulator :=
  let rd := (instruction >>> RD_OFFSET) &&& getLSBMask REG_INDEX_BITS
  { e with
    registers := writeReg e.registers rd (((instruction >>> U_IMM_OFFSET) <<< U_IMM_OFFSET) % 2 ^ 32)
    pc := (e.pc + 4) % 2 ^ 32 }

/-- Source `Emulator::executeAUIPC`. -/
def Emulator.executeAUIPC (e : Emulator) (instruction : Nat) : Emulator :=
  let rd := (instruction >>> RD_OFFSET) &&& getLSBMask REG_INDEX_BITS
  let immediate := ((instruction >>> U_IMM_OFFSET) <<< U_IMM_OFFSET) % 2 ^ 32
  { e with
    registers := writeReg e.registers rd ((e.pc + immediate) % 2 ^ 32)
    pc := (e.pc + 4) % 2 ^ 32 }

/-- Source `Emulator::executeJALR`: the destination register is written first
and the source register is read afterwards, from the updated register file. -/
def Emulator.executeJALR (e : Emulator) (instruction : Nat) : Emulator :=
  let rd := (instruction >>> RD_OFFSET) &&& getLSBMask REG_INDEX_BITS
  let rs1 := (instruction >>> RS1_OFFSET) &&& getLSBMask REG_INDEX_BITS
  let imm : Int := toInt32 instruction >>> I_IMM_OFFSET
  let registers := writeReg e.registers rd ((e.pc + 4) % 2 ^ 32)
  { e with
    registers := registers
    pc := ((readReg registers rs1 + toUInt32 imm) % 2 ^ 32) &&& 0xFFFFFFFE }

/-- Source `Emulator::executeBranch`. -/
def Emulator.executeBranch (e : Emulator) (instruction : Nat) : Emulator :=
  let rs1 := (instruction >>> RS1_OFFSET) &&& getLSBMask REG_INDEX_BITS
  let rs2 := (instruction >>> RS2_OFFSET) &&& getLSBMask REG_INDEX_BITS
  let imm : Int := BImm instruction
  let funct3 := (instruction >>> FUNCT3_OFFSET) &&& getLSBMask 3
  let branch : Bool :=
    if funct3 = BEQ_FUNCT3 then
      decide (readReg e.registers rs1 = readReg e.registers rs2)
    else if funct3 = BNE_FUNCT3 then
      decide (readReg e.registers rs1 ≠ readReg e.registers rs2)
    else if funct3 = BLT_FUNCT3 then
      decide (toInt32 (readReg e.registers rs1) < toInt32 (readReg e.registers rs2))
    else if funct3 = BGE_FUNCT3 then
      decide (toInt32 (readReg e.registers rs1) ≥ toInt32 (readReg e.registers rs2))
    else if funct3 = BLTU_FUNCT3 then
      decide (readReg e.registers rs1 < readReg e.registers rs2)
    else if funct3 = BGEU_FUNCT3 then
      decide (readReg e.registers rs1 ≥ readReg e.registers rs2)
    else false
  if branch then
    { e with pc := (e.pc + toUInt32 imm) % 2 ^ 32 }
  else
    { e with pc := (e.pc + 4) % 2 ^ 32 }

/-- The instruction fetch at the head of `Emulator::step`: four bytes at `pc`,
`pc + 1`, `pc + 2`, `pc + 3` (index arithmetic in `uint32_t`), each masked with
`0xFF`, joined little-endian. -/
def Emulator.fetch (e : Emulator) : Nat :=
  (0x000000FF &&& e.program e.pc) |||
  ((0x000000FF &&& e.program ((e.pc + 1) % 2 ^ 32)) <<< 8) |||
  ((0x000000FF &&& e.program ((e.pc + 2) % 2 ^ 32)) <<< 16) |||
  ((0x000000FF &&& e.program ((e.pc + 3) % 2 ^ 32)) <<< 24)

/-- The `switch (opcode)` of `Emulator::step`: the state after the executor that
was dispatched, or `none` for the `default` label, which returns from `step`. -/
def Emulator.dispatch (e : Emulator) (instruction : Nat) : Option Emulator :=
  let opcode := instruction &&& getLSBMask OPCODE_WIDTH
  if opcode = OP_IMM then some (e.executeIType instruction)
  else if opcode = OP_REG then some (e.executeRType instruction)
  else if opcode = OP_LUI then some (e.executeLUI instruction)
  else if opcode = OP_AUIPC then some (e.executeAUIPC instruction)
  else if opcode = OP_JALR then some (e.executeJALR instruction)
  else none

/-- Source `Emulator::step`. -/
def Emulator.step (e : Emulator) : Emulator :=
  let instruction := e.fetch
  match e.dispatch instruction with
  | some e' => { e' with instructions_executed := e'.instructions_executed + 1 }
  | none => e

/-- The `for` loop of `Emulator::stepMultiple`, for the iterations that remain. -/
def Emulator.stepLoop : Nat → Emulator → Emulator
  | 0, e => e
  | n + 1, e => Emulator.stepLoop n e.step

/-- Source `Emulator::stepMultiple`: the outcome (the `invalid_argument` message
when it throws) together with the emulator object afterwards. -/
def Emulator.stepMultiple (e : Emulator) (steps : Int) : Except String Unit × Emulator :=
  if steps < 0 then
    (Except.error "# of steps cannot be negative.", e)
  else
    (Except.ok (), Emulator.stepLoop steps.toNat e)

/-- Modelled from the spec: `emulator.h`, which declares `CONDITION`, is not
among the sources; a condition may test the program counter, a register, or
both, against one target value. -/
structure CONDITION where
  isPC : Bool
  isRegister : Bool
  registerNumber : Nat
  targetValue : Nat

/-- Source `Emulator::areConditionsMet`. -/
def Emulator.areConditionsMet (e : Emulator) : List CONDITION → Bool
  | [] => true
  | condition :: rest =>
    if condition.isPC && e.pc != condition.targetValue then false
    else if condition.isRegister &&
        readReg e.registers condition.registerNumber != condition.targetValue then false
    else Emulator.areConditionsMet e rest

/-- Source `Emulator::stepUntilConditionsMet`: the `while` loop, cut off after
`fuel` evaluations of its condition; `none` when the fuel runs out first. -/
def Emulator.stepUntilConditionsMet (conditions : List CONDITION) :
    Nat → Emulator → Option Emulator
  | 0, _ => none
  | fuel + 1, e =>
    if e.areConditionsMet conditions then some e
    else Emulator.stepUntilConditionsMet conditions fuel e.step

/-! ## Register naming (`emulator.cpp` lines 289-307) -/

/-- The two exceptions that can leave `registerNameToRegisterIndex`, each with
its message. -/
inductive Exception where
  | invalid_argument (what : String)
  | out_of_range (what : String)
  deriving DecidableEq, Repr

/-- The white-space characters that `std::stoi` skips: the space and the
characters 9 to 13 (tab, line feed, vertical tab, form feed, carriage return). -/
def isspace (c : Char) : Bool := c.toNat = 32 || (9 ≤ c.toNat && c.toNat ≤ 13)

/-- The C++ standard library function `std::stoi(str)` in base 10: leading white
space is skipped, one sign is accepted, then the longest run of decimal digits is
read and whatever follows is ignored.  Without a digit it throws
`invalid_argument`; a value outside the range of `int` throws `out_of_range`. -/
def stoi (str : List Char) : Except Exception Int :=
  let trimmed := str.dropWhile isspace
  let negative : Bool :=
    match trimmed with
    | c :: _ => c = '-'
    | [] => false
  let unsigned : List Char :=
    match trimmed with
    | c :: rest => if c = '-' ∨ c = '+' then rest else trimmed
    | [] => trimmed
  let digits := unsigned.takeWhile Char.isDigit
  if digits = [] then
    Except.error (Exception.invalid_argument "stoi")
  else
    let magnitude : Nat := digits.foldl (fun acc c => 10 * acc + (c.toNat - 48)) 0
    let value : Int := if negative then -(magnitude : Int) else (magnitude : Int)
    if value < -2147483648 ∨ 2147483647 < value then
      Except.error (Exception.out_of_range "stoi")
    else
      Except.ok value

/-- The body of the `try` block of `registerNameToRegisterIndex`.  The table
`abi_register_names` is declared in `riscv.h`, which is not among the sources,
and is a parameter.  `registerName[0]` of an empty string is the null character,
which is not `x`; `substr(1, size)` is the text after the first character. -/
def registerNameToRegisterIndexBody (abi_register_names : List String)
    (registerName : String) : Except Exception Nat :=
  let parsed : Except Exception Int :=
    if registerName.data.head? = some 'x' then
      stoi registerName.data.tail
    else
      let found : Int :=
        (List.range REG_COUNT).foldl
          (fun registerNumber i =>
            if registerName = abi_register_names.getD i "" then (i : Int) else registerNumber)
          (-1)
      Except.ok (if registerName = "fp" ∨ registerName = "s0" then 8 else found)
  match parsed with
  | Except.error ex => Except.error ex
  | Except.ok registerNumber =>
    if registerNumber < 0 ∨ registerNumber > (REG_COUNT : Int) - 1 then
      Except.error (Exception.invalid_argument "Specified register does not exist")
    else
      Except.ok registerNumber.toNat

/-- Source `registerNameToRegisterIndex`: the `catch` clause replaces every
`invalid_argument` by one with the message "Specified register does not exist";
an `out_of_range` is not caught. -/
def registerNameToRegisterIndex (abi_register_names : List String)
    (registerName : String) : Except Exception Nat :=
  match registerNameToRegisterIndexBody abi_register_names registerName with
  | Except.error (Exception.invalid_argument _) =>
    Except.error (Exception.invalid_argument "Specified register does not exist")
  | Except.error (Exception.out_of_range what) => Except.error (Exception.out_of_range what)
  | Except.ok registerNumber => Except.ok registerNumber

/-! ## Concrete program images and states used by the examples -/

/-- The program image that starts with the listed bytes; the bytes after them are
zero. -/
def imageOf (bytes : List Nat) : Nat → Nat := fun offset => bytes.getD offset 0

/-- A fresh emulator at pc 0 on the image `ADDI x1, x0, 5` (word `0x00500093`). -/
def addiScenario : Emulator := Emulator.create (imageOf [0x93, 0x00, 0x50, 0x00]) 0

/-- A fresh emulator at pc 0 on the image `BEQ x0, x0, +8` (word `0x00000463`). -/
def beqScenario : Emulator := Emulator.create (imageOf [0x63, 0x04, 0x00, 0x00]) 0

/-- A fresh emulator at pc 0 on the image `ADDI x1, x0, 100 ; JALR x1, x1, 0`
(words `0x06400093`, `0x000080E7`). -/
def jalrAliasedScenario : Emulator :=
  Emulator.create (imageOf [0x93, 0x00, 0x40, 0x06, 0xE7, 0x80, 0x00, 0x00]) 0

/-- An emulator at pc 0 on the image `JALR x1, x5, 0` (word `0x000280E7`) whose
register 5 holds 100. -/
def jalrScenario : Emulator :=
  { Emulator.create (imageOf [0xE7, 0x80, 0x02, 0x00]) 0 with
    registers := writeReg (List.replicate REG_COUNT 0) 5 100 }

/-- A fresh emulator at pc 0 on an image whose first word, `0x00000463`, has the
branch opcode `1100011`, which `step` does not dispatch. -/
def unknownOpcodeScenario : Emulator :=
  Emulator.create (imageOf [0x63, 0x04, 0x00, 0x00]) 0

/-- An emulator at pc 8 with all registers zero, for the upper-immediate
executors. -/
def upperImmScenario : Emulator := Emulator.create (imageOf []) 8

/-- The condition "pc equals 4". -/
def pcIsFour : CONDITION :=
  { isPC := true, isRegister := false, registerNumber := 0, targetValue := 4 }

/-- A fresh emulator at pc 0 on the image `ADDI x1, x0, 10 ; ADDI x2, x1, 20`
(words `0x00A00093`, `0x01408113`). -/
def twoAddiScenario : Emulator :=
  Emulator.create (imageOf [0x93, 0x00, 0xA0, 0x00, 0x13, 0x81, 0x40, 0x01]) 0

/-- A fresh emulator at pc 0 on the image `ADDI x0, x0, 5 ; ADDI x1, x0, 0`
(words `0x00500013`, `0x00000093`). -/
def writeZeroScenario : Emulator :=
  Emulator.create (imageOf [0x13, 0x00, 0x50, 0x00, 0x93, 0x00, 0x00, 0x00]) 0

/-- An emulator at pc 0 whose register 2 holds 8 and register 3 holds
`0xFFFFFFF0`; its image starts with the word `0x02115093` (register-immediate
class, funct3 101, rd 1, rs1 2, shift amount 1, secondary function code
0000001). -/
def shiftScenario : Emulator :=
  { Emulator.create (imageOf [0x93, 0x50, 0x11, 0x02]) 0 with
    registers := writeReg (writeReg (List.replicate REG_COUNT 0) 2 8) 3 0xFFFFFFF0 }

/-- A fresh emulator at pc 0 whose image starts with the word `0x02208033`
(register-register class, funct3 000, rd 0, rs1 1, rs2 2, secondary function code
0000001). -/
def unknownFunctScenario : Emulator :=
  Emulator.create (imageOf [0x33, 0x80, 0x20, 0x02]) 0

/-- An emulator at pc 0 whose register 1 holds 7 and register 2 holds 9. -/
def twoOperandScenario : Emulator :=
  { Emulator.create (imageOf []) 0 with
    registers := writeReg (writeReg (List.replicate REG_COUNT 0) 1 7) 2 9 }

/-- The condition "register 1 equals 5". -/
def regOneIsFive : CONDITION :=
  { isPC := false, isRegister := true, registerNumber := 1, targetValue := 5 }

/-- The ABI names of the 32 registers in RV32I order, as an example of the table
`abi_register_names`. -/
def exampleAbiNames : List String :=
  ["zero", "ra", "sp", "gp", "tp", "t0", "t1", "t2", "s0", "s1", "a0", "a1", "a2", "a3", "a4",
   "a5", "a6", "a7", "s2", "s3", "s4", "s5", "s6", "s7", "s8", "s9", "s10", "s11", "t3", "t4",
   "t5", "t6"]

/-! ## Auxiliary facts -/

theorem readReg_writeReg_same (registers : List Nat) (i v : Nat) (h : i < registers.length) :
    readReg (writeReg registers i v) i = v := by
  simp [readReg, writeReg, List.getD_eq_getElem?_getD, h]

theorem readReg_writeReg_other (registers : List Nat) (i j v : Nat) (h : j ≠ i) :
    readReg (writeReg registers i v) j = readReg registers j := by
  simp [readReg, writeReg, List.getD_eq_getElem?_getD, List.getElem?_set_ne (Ne.symm h)]

theorem length_writeReg (registers : List Nat) (i v : Nat) :
    (writeReg registers i v).length = registers.length := by
  simp [writeReg]

theorem and_getLSBMask (x n : Nat) (h : n < 32) : x &&& getLSBMask n = x % 2 ^ n := by
  simp [getLSBMask, h, Nat.shiftLeft_eq]

theorem or_shiftLeft_eq_add (a b k : Nat) (h : a < 2 ^ k) : a ||| (b <<< k) = a + b * 2 ^ k := by
  rw [Nat.shiftLeft_eq, Nat.or_comm, Nat.mul_comm, ← Nat.mul_add_lt_is_or h, Nat.add_comm]

theorem byteMask_and (x : Nat) : 0x000000FF &&& x = x % 256 := by
  rw [Nat.and_comm]
  exact Nat.and_pow_two_sub_one_eq_mod x 8

theorem fetch_eq (e : Emulator) :
    e.fetch = e.program e.pc % 256 + e.program ((e.pc + 1) % 2 ^ 32) % 256 * 2 ^ 8
      + e.program ((e.pc + 2) % 2 ^ 32) % 256 * 2 ^ 16
      + e.program ((e.pc + 3) % 2 ^ 32) % 256 * 2 ^ 24 := by
  unfold Emulator.fetch
  simp only [byteMask_and]
  rw [or_shiftLeft_eq_add _ _ 8 (by omega), or_shiftLeft_eq_add _ _ 16 (by omega),
    or_shiftLeft_eq_add _ _ 24 (by omega)]

theorem fetch_lt (e : Emulator) : e.fetch < 2 ^ 32 := by
  rw [fetch_eq]; omega

theorem signedImm_eq (w : Nat) (h : w < 2 ^ 32) :
    toInt32 w >>> I_IMM_OFFSET
      = if w / 2 ^ 20 < 2048 then ((w / 2 ^ 20 : Nat) : Int) else ((w / 2 ^ 20 : Nat) : Int) - 4096 := by
  unfold toInt32
  rw [Int.shiftRight_eq_div_pow, Nat.mod_eq_of_lt h]
  have h20 : (((2 : Nat) ^ I_IMM_OFFSET : Nat) : Int) = 1048576 := by norm_num
  rw [h20]
  split_ifs <;> omega

theorem toUInt32_add (a : Nat) (i : Int) :
    (a + toUInt32 i) % 2 ^ 32 = (((a : Int) + i) % 2 ^ 32).toNat := by
  unfold toUInt32
  omega


theorem and_mask_eq (x s l : Nat) :
    x &&& ((2 ^ l - 1) * 2 ^ s) = (x / 2 ^ s % 2 ^ l) * 2 ^ s := by
  apply Nat.eq_of_testBit_eq
  intro j
  rw [← Nat.shiftLeft_eq, ← Nat.shiftLeft_eq, ← Nat.shiftRight_eq_div_pow]
  simp only [Nat.testBit_and, Nat.testBit_shiftLeft, Nat.testBit_two_pow_sub_one,
    Nat.testBit_mod_two_pow, Nat.testBit_shiftRight]
  by_cases h : s ≤ j
  · have : s + (j - s) = j := by omega
    simp [h, this, Bool.and_comm]
  · simp [h]

theorem BImm_eq (w : Nat) (hw : w < 2 ^ 32) :
    BImm w = ((w / 2 ^ 8 % 16 * 2 + w / 2 ^ 25 % 64 * 32 + w / 2 ^ 7 % 2 * 2048
      + w / 2 ^ 31 * 4096 : Nat) : Int) := by
  have hA : w &&& bitMask 8 11 = w / 2 ^ 8 % 2 ^ 4 * 2 ^ 8 := and_mask_eq w 8 4
  have hB : w &&& bitMask 25 30 = w / 2 ^ 25 % 2 ^ 6 * 2 ^ 25 := and_mask_eq w 25 6
  have hC : w &&& bitMask 7 7 = w / 2 ^ 7 % 2 ^ 1 * 2 ^ 7 := and_mask_eq w 7 1
  have hD : w &&& bitMask 31 31 = w / 2 ^ 31 % 2 ^ 1 * 2 ^ 31 := and_mask_eq w 31 1
  unfold BImm
  rw [hA, hB, hC, hD]
  simp only [Nat.shiftRight_eq_div_pow, Nat.shiftLeft_eq]
  have e1 : w / 2 ^ 8 % 2 ^ 4 * 2 ^ 8 / 2 ^ 7 = (w / 2 ^ 8 % 16) * 2 := by omega
  have e2 : w / 2 ^ 25 % 2 ^ 6 * 2 ^ 25 / 2 ^ 20 = (w / 2 ^ 25 % 64) <<< 5 := by
    rw [Nat.shiftLeft_eq]; omega
  have e3 : w / 2 ^ 7 % 2 ^ 1 * 2 ^ 7 * 2 ^ 4 % 2 ^ 32 = (w / 2 ^ 7 % 2) <<< 11 := by
    rw [Nat.shiftLeft_eq]; omega
  have e4 : w / 2 ^ 31 % 2 ^ 1 * 2 ^ 31 / 2 ^ 19 = (w / 2 ^ 31) <<< 12 := by
    rw [Nat.shiftLeft_eq]; omega
  rw [e1, e2, e3, e4, or_shiftLeft_eq_add _ _ 5 (by omega), or_shiftLeft_eq_add _ _ 11 (by omega),
    or_shiftLeft_eq_add _ _ 12 (by omega)]
  have hS : w / 2 ^ 8 % 16 * 2 + w / 2 ^ 25 % 64 * 2 ^ 5 + w / 2 ^ 7 % 2 * 2 ^ 11
      + w / 2 ^ 31 * 2 ^ 12 < 8192 := by omega
  unfold toInt16
  rw [Nat.mod_eq_of_lt (by omega), if_pos (by omega)]
  congr 1


theorem opcode_field (w : Nat) : w &&& getLSBMask OPCODE_WIDTH = w % 128 := by
  rw [and_getLSBMask _ _ (by decide)]
  norm_num

theorem funct3_field (w : Nat) : (w >>> FUNCT3_OFFSET) &&& getLSBMask 3 = w / 4096 % 8 := by
  rw [and_getLSBMask _ _ (by decide), Nat.shiftRight_eq_div_pow]
  norm_num

theorem rd_field (w : Nat) :
    (w >>> RD_OFFSET) &&& getLSBMask REG_INDEX_BITS = w / 128 % 32 := by
  rw [and_getLSBMask _ _ (by decide), Nat.shiftRight_eq_div_pow]
  norm_num

theorem rs1_field (w : Nat) :
    (w >>> RS1_OFFSET) &&& getLSBMask REG_INDEX_BITS = w / 32768 % 32 := by
  rw [and_getLSBMask _ _ (by decide), Nat.shiftRight_eq_div_pow]
  norm_num

theorem rs2_field (w : Nat) :
    (w >>> RS2_OFFSET) &&& getLSBMask REG_INDEX_BITS = w / 1048576 % 32 := by
  rw [and_getLSBMask _ _ (by decide), Nat.shiftRight_eq_div_pow]
  norm_num

theorem step_of_dispatch (e e' : Emulator) (h : e.dispatch e.fetch = some e') :
    e.step = { e' with instructions_executed := e'.instructions_executed + 1 } := by
  simp [Emulator.step, h]

theorem executeIType_add (e : Emulator) (w : Nat) (hf3 : w / 4096 % 8 = 0) :
    e.executeIType w =
      { e with
        registers := writeReg e.registers (w / 128 % 32)
          ((readReg e.registers (w / 32768 % 32) + toUInt32 (toInt32 w >>> I_IMM_OFFSET)) % 2 ^ 32)
        pc := (e.pc + 4) % 2 ^ 32 } := by
  unfold Emulator.executeIType
  simp only [funct3_field, rd_field, rs1_field, hf3, if_pos]

/-! ## Claims -/

/-- Claim C1: when the four bytes at pc, pc+1, pc+2, pc+3 (offsets taken modulo
2^32, as the fetch does) form, little-endian, the add-immediate word with fields
`rd`, `rs1`, `imm` (opcode 0010011, funct3 000), one `step` leaves
`registers[rd]` equal to the old `registers[rs1]` plus the sign-extended `imm`
modulo 2^32 (also for `rd = rs1`), sets pc to `(pc + 4) mod 2^32`, keeps every
other register and raises the execution counter by one.  A four-byte word forces
`imm < 4096`. -/
theorem step_addi (e : Emulator) (rd rs1 imm : Nat)
    (hlen : e.registers.length = REG_COUNT)
    (hrd : rd < 32) (hrs1 : rs1 < 32)
    (hword : e.program e.pc % 256 + e.program ((e.pc + 1) % 2 ^ 32) % 256 * 2 ^ 8
        + e.program ((e.pc + 2) % 2 ^ 32) % 256 * 2 ^ 16
        + e.program ((e.pc + 3) % 2 ^ 32) % 256 * 2 ^ 24
      = imm * 2 ^ 20 + rs1 * 2 ^ 15 + 0b000 * 2 ^ 12 + rd * 2 ^ 7 + 0b0010011) :
    readReg e.step.registers rd
        = (((readReg e.registers rs1 : Int)
            + (if imm < 2048 then (imm : Int) else (imm : Int) - 4096)) % 2 ^ 32).toNat
      ∧ e.step.pc = (e.pc + 4) % 2 ^ 32
      ∧ (∀ j, j ≠ rd → readReg e.step.registers j = readReg e.registers j)
      ∧ e.step.instructions_executed = e.instructions_executed + 1 := by
  have hw : e.fetch = imm * 2 ^ 20 + rs1 * 2 ^ 15 + 0b000 * 2 ^ 12 + rd * 2 ^ 7 + 0b0010011 := by
    rw [fetch_eq]; exact hword
  have hlt : e.fetch < 2 ^ 32 := fetch_lt e
  have hop : e.fetch % 128 = 19 := by omega
  have hf3 : e.fetch / 4096 % 8 = 0 := by omega
  have hfrd : e.fetch / 128 % 32 = rd := by omega
  have hfrs1 : e.fetch / 32768 % 32 = rs1 := by omega
  have hfimm : e.fetch / 2 ^ 20 = imm := by omega
  have hd : e.dispatch e.fetch = some (e.executeIType e.fetch) := by
    simp [Emulator.dispatch, opcode_field, hop]
  rw [step_of_dispatch e _ hd, executeIType_add e _ hf3, hfrd, hfrs1, signedImm_eq _ hlt, hfimm]
  refine ⟨?_, rfl, ?_, rfl⟩
  · show readReg (writeReg _ _ _) _ = _
    rw [readReg_writeReg_same _ _ _ (by rw [hlen]; exact hrd), toUInt32_add]
  · intro j hj
    exact readReg_writeReg_other _ _ _ _ hj


/-- Witness for C1 on `ADDI x1, x0, 5` from a fresh emulator: register 1 becomes
5 and pc becomes 4. -/
theorem step_addi_witness :
    readReg addiScenario.step.registers 1 = 5 ∧ addiScenario.step.pc = 4
      ∧ addiScenario.step.instructions_executed = 1 := by
  have h := step_addi addiScenario 1 0 5 (by decide) (by decide) (by decide) (by decide)
  exact ⟨h.1.trans (by decide), h.2.1.trans (by decide), h.2.2.2.trans (by decide)⟩

/-- Claim C2 (evaluation of the code): on the image `BEQ x0, x0, +8` a fresh
emulator fetches the word `0x00000463`, whose opcode is 1100011; `step` has no
case for that opcode, so pc stays 0 and nothing is counted, whereas
`executeBranch` on the same word sets pc to 8. -/
theorem step_beq_not_dispatched :
    beqScenario.fetch = 0x00000463
      ∧ beqScenario.fetch % 128 = OP_BRANCH
      ∧ (beqScenario.dispatch beqScenario.fetch).isNone = true
      ∧ beqScenario.step.pc = 0
      ∧ beqScenario.step.instructions_executed = 0
      ∧ (beqScenario.executeBranch beqScenario.fetch).pc = 8 := by
  decide

/-- Claim C3 (what the code computes): for every 32-bit word, `BImm` is the
13-bit value with bits 4:1 from w[11:8], bits 10:5 from w[30:25], bit 11 from
w[7] and bit 12 from w[31], read as an unsigned number: it is even and lies in
0..8190, and is never negative, because the 13-bit value fits the `int16_t`
return type without reaching its sign bit. -/
theorem BImm_unsigned (w : Nat) (hw : w < 2 ^ 32) :
    BImm w = ((w / 2 ^ 8 % 16 * 2 + w / 2 ^ 25 % 64 * 32 + w / 2 ^ 7 % 2 * 2048
        + w / 2 ^ 31 * 4096 : Nat) : Int)
      ∧ 0 ≤ BImm w ∧ BImm w ≤ 8190 ∧ BImm w % 2 = 0 := by
  have h := BImm_eq w hw
  refine ⟨h, ?_, ?_, ?_⟩ <;> rw [h] <;> omega

/-- Witness for C3 at the word `0x80000000`, whose bit 31 is set: the code
returns 4096, not -4096. -/
theorem BImm_unsigned_witness : BImm 0x80000000 = 4096 := by
  have h := (BImm_unsigned 0x80000000 (by decide)).1
  exact h.trans (by decide)

/-- Claim C4 (evaluation of the code): after `ADDI x1, x0, 100` register 1 holds
100 and pc is 4, where the word `JALR x1, x1, 0` sits; `executeJALR` first
stores the return address 8 in register 1 and then reads register 1 as the jump
base, so pc becomes 8 and not 100. -/
theorem executeJALR_aliased :
    readReg jalrAliasedScenario.step.registers 1 = 100
      ∧ jalrAliasedScenario.step.pc = 4
      ∧ jalrAliasedScenario.step.fetch = 0x000080E7
      ∧ (jalrAliasedScenario.step.executeJALR 0x000080E7).pc = 8
      ∧ readReg (jalrAliasedScenario.step.executeJALR 0x000080E7).registers 1 = 8
      ∧ jalrAliasedScenario.step.step.pc = 8 := by
  decide


theorem and_clear_bit0 (x : Nat) : (x &&& 0xFFFFFFFE) % 2 = 0 := by
  have h := and_mask_eq x 1 31
  norm_num at h
  rw [h]
  omega

theorem executeJALR_eq (e : Emulator) (w : Nat) :
    e.executeJALR w =
      { e with
        registers := writeReg e.registers (w / 128 % 32) ((e.pc + 4) % 2 ^ 32)
        pc := ((readReg (writeReg e.registers (w / 128 % 32) ((e.pc + 4) % 2 ^ 32))
                  (w / 32768 % 32) + toUInt32 (toInt32 w >>> I_IMM_OFFSET)) % 2 ^ 32)
                &&& 0xFFFFFFFE } := by
  unfold Emulator.executeJALR
  simp only [rd_field, rs1_field]

/-- Claim C5: for every state with its 32 registers and every word at pc with
opcode 1100111 (fields `rd`, `rs1`, `funct3`, `imm` arbitrary), after one `step`
bit 0 of pc is 0 and `registers[rd]` is `(pc before + 4) mod 2^32`; and with
`registers[5] = 100` and the word `JALR x1, x5, 0` at pc 0, one `step` leaves
`registers[1] = 4` and `pc = 100`. -/
theorem step_jalr :
    (∀ (e : Emulator) (rd rs1 funct3 imm : Nat),
      e.registers.length = REG_COUNT → rd < 32 → rs1 < 32 → funct3 < 8 →
      e.program e.pc % 256 + e.program ((e.pc + 1) % 2 ^ 32) % 256 * 2 ^ 8
          + e.program ((e.pc + 2) % 2 ^ 32) % 256 * 2 ^ 16
          + e.program ((e.pc + 3) % 2 ^ 32) % 256 * 2 ^ 24
        = imm * 2 ^ 20 + rs1 * 2 ^ 15 + funct3 * 2 ^ 12 + rd * 2 ^ 7 + 0b1100111 →
      e.step.pc % 2 = 0 ∧ readReg e.step.registers rd = (e.pc + 4) % 2 ^ 32)
    ∧ (readReg jalrScenario.registers 5 = 100 ∧ jalrScenario.pc = 0
        ∧ jalrScenario.fetch = 0x000280E7
        ∧ readReg jalrScenario.step.registers 1 = 4 ∧ jalrScenario.step.pc = 100) := by
  refine ⟨?_, by decide⟩
  intro e rd rs1 funct3 imm hlen hrd hrs1 hf3 hword
  have hw : e.fetch = imm * 2 ^ 20 + rs1 * 2 ^ 15 + funct3 * 2 ^ 12 + rd * 2 ^ 7 + 0b1100111 := by
    rw [fetch_eq]; exact hword
  have hop : e.fetch % 128 = 103 := by omega
  have hfrd : e.fetch / 128 % 32 = rd := by omega
  have hd : e.dispatch e.fetch = some (e.executeJALR e.fetch) := by
    simp [Emulator.dispatch, opcode_field, hop]
  rw [step_of_dispatch e _ hd, executeJALR_eq, hfrd]
  refine ⟨and_clear_bit0 _, ?_⟩
  show readReg (writeReg _ _ _) _ = _
  rw [readReg_writeReg_same _ _ _ (by rw [hlen]; exact hrd)]

/-- Witness for C5 on `JALR x1, x5, 0` at pc 0 with `registers[5] = 100`. -/
theorem step_jalr_witness :
    jalrScenario.step.pc % 2 = 0 ∧ readReg jalrScenario.step.registers 1 = 4 := by
  have h := step_jalr.1 jalrScenario 1 5 0 0 (by decide) (by decide) (by decide) (by decide)
    (by decide)
  exact ⟨h.1, h.2.trans (by decide)⟩

/-- Claim C6: when the little-endian word `w` at pc has low seven bits equal to
none of the five opcodes that `step` dispatches, one `step` returns the state it
was given: pc, the whole register file and the execution counter are as they
were. -/
theorem step_unknown_opcode (e : Emulator) (w : Nat)
    (hword : e.program e.pc % 256 + e.program ((e.pc + 1) % 2 ^ 32) % 256 * 2 ^ 8
        + e.program ((e.pc + 2) % 2 ^ 32) % 256 * 2 ^ 16
        + e.program ((e.pc + 3) % 2 ^ 32) % 256 * 2 ^ 24 = w)
    (hIMM : w % 2 ^ 7 ≠ OP_IMM) (hREG : w % 2 ^ 7 ≠ OP_REG) (hLUI : w % 2 ^ 7 ≠ OP_LUI)
    (hAUIPC : w % 2 ^ 7 ≠ OP_AUIPC) (hJALR : w % 2 ^ 7 ≠ OP_JALR) :
    e.step = e ∧ e.step.pc = e.pc ∧ e.step.registers = e.registers
      ∧ e.step.instructions_executed = e.instructions_executed := by
  have hw : e.fetch = w := by rw [fetch_eq]; exact hword
  have hd : e.dispatch e.fetch = none := by
    rw [hw]
    simp only [Emulator.dispatch, opcode_field]
    norm_num at hIMM hREG hLUI hAUIPC hJALR
    simp [hIMM, hREG, hLUI, hAUIPC, hJALR]
  have hs : e.step = e := by simp [Emulator.step, hd]
  rw [hs]
  exact ⟨rfl, rfl, rfl, rfl⟩

/-- Witness for C6 on a word with opcode 1100011 at pc 0 of a fresh emulator. -/
theorem step_unknown_opcode_witness :
    unknownOpcodeScenario.step.pc = 0
      ∧ unknownOpcodeScenario.step.registers = List.replicate 32 0
      ∧ unknownOpcodeScenario.step.instructions_executed = 0 := by
  have h := step_unknown_opcode unknownOpcodeScenario 0x00000463 (by decide) (by decide)
    (by decide) (by decide) (by decide) (by decide)
  exact ⟨h.2.1, h.2.2.1, h.2.2.2⟩

/-- Claim C7: for every state with its 32 registers and the LUI word with
destination `rd` and 20-bit immediate `imm20` in bits 31:12, after `executeLUI`
the low 12 bits of `registers[rd]` are 0 and its top 20 bits are `imm20`, every
other register is unchanged and pc is `(pc + 4) mod 2^32`. -/
theorem executeLUI_correct (e : Emulator) (w rd imm20 : Nat)
    (hlen : e.registers.length = REG_COUNT) (hrd : rd < 32) (himm : imm20 < 2 ^ 20)
    (hw : w = imm20 * 2 ^ 12 + rd * 2 ^ 7 + 0b0110111) :
    readReg (e.executeLUI w).registers rd % 2 ^ 12 = 0
      ∧ readReg (e.executeLUI w).registers rd / 2 ^ 12 = imm20
      ∧ (∀ j, j ≠ rd → readReg (e.executeLUI w).registers j = readReg e.registers j)
      ∧ (e.executeLUI w).pc = (e.pc + 4) % 2 ^ 32 := by
  have hfrd : w / 128 % 32 = rd := by omega
  have hval : ((w >>> U_IMM_OFFSET) <<< U_IMM_OFFSET) % 2 ^ 32 = imm20 * 4096 := by
    rw [Nat.shiftRight_eq_div_pow, Nat.shiftLeft_eq]
    norm_num
    omega
  unfold Emulator.executeLUI
  simp only [rd_field, hfrd, hval]
  refine ⟨?_, ?_, ?_, trivial⟩
  · rw [readReg_writeReg_same _ _ _ (by rw [hlen]; exact hrd)]; omega
  · rw [readReg_writeReg_same _ _ _ (by rw [hlen]; exact hrd)]; omega
  · intro j hj
    exact readReg_writeReg_other _ _ _ _ hj

/-- Witness for C7 on `LUI x3, 0xABCDE`: register 3 becomes `0xABCDE000`. -/
theorem executeLUI_correct_witness :
    readReg (upperImmScenario.executeLUI 0xABCDE1B7).registers 3 % 2 ^ 12 = 0
      ∧ readReg (upperImmScenario.executeLUI 0xABCDE1B7).registers 3 / 2 ^ 12 = 0xABCDE
      ∧ (upperImmScenario.executeLUI 0xABCDE1B7).pc = 12 := by
  have h := executeLUI_correct upperImmScenario 0xABCDE1B7 3 0xABCDE (by decide) (by decide)
    (by decide) (by decide)
  exact ⟨h.1, h.2.1, h.2.2.2.trans (by decide)⟩

/-- Claim C8: for every state with its 32 registers and the AUIPC word with
destination `rd` and 20-bit immediate `imm20`, after `executeAUIPC`
`registers[rd]` is `(pc before + imm20 * 2^12) mod 2^32` and pc is
`(pc before + 4) mod 2^32`. -/
theorem executeAUIPC_correct (e : Emulator) (w rd imm20 : Nat)
    (hlen : e.registers.length = REG_COUNT) (hrd : rd < 32) (himm : imm20 < 2 ^ 20)
    (hw : w = imm20 * 2 ^ 12 + rd * 2 ^ 7 + 0b0010111) :
    readReg (e.executeAUIPC w).registers rd = (e.pc + imm20 * 2 ^ 12) % 2 ^ 32
      ∧ (e.executeAUIPC w).pc = (e.pc + 4) % 2 ^ 32 := by
  have hfrd : w / 128 % 32 = rd := by omega
  have hval : ((w >>> U_IMM_OFFSET) <<< U_IMM_OFFSET) % 2 ^ 32 = imm20 * 2 ^ 12 := by
    rw [Nat.shiftRight_eq_div_pow, Nat.shiftLeft_eq]
    norm_num
    omega
  unfold Emulator.executeAUIPC
  simp only [rd_field, hfrd, hval]
  refine ⟨?_, trivial⟩
  rw [readReg_writeReg_same _ _ _ (by rw [hlen]; exact hrd)]

/-- Witness for C8 on `AUIPC x3, 0xFFFFF` at pc 8: the sum wraps to
`0xFFFFF008`. -/
theorem executeAUIPC_correct_witness :
    readReg (upperImmScenario.executeAUIPC 0xFFFFF197).registers 3 = 0xFFFFF008
      ∧ (upperImmScenario.executeAUIPC 0xFFFFF197).pc = 12 := by
  have h := executeAUIPC_correct upperImmScenario 0xFFFFF197 3 0xFFFFF (by decide) (by decide)
    (by decide) (by decide)
  exact ⟨h.1.trans (by decide), h.2.trans (by decide)⟩


theorem stepUntilConditionsMet_some (conditions : List CONDITION) :
    ∀ (fuel : Nat) (e e' : Emulator),
      Emulator.stepUntilConditionsMet conditions fuel e = some e' →
      ∃ k, k < fuel ∧ e' = Emulator.step^[k] e
        ∧ e'.areConditionsMet conditions = true
        ∧ ∀ j, j < k → (Emulator.step^[j] e).areConditionsMet conditions = false := by
  intro fuel
  induction fuel with
  | zero => intro e e' h; simp [Emulator.stepUntilConditionsMet] at h
  | succ fuel ih =>
    intro e e' h
    unfold Emulator.stepUntilConditionsMet at h
    by_cases hmet : e.areConditionsMet conditions = true
    · rw [if_pos hmet] at h
      have he : e = e' := Option.some.inj h
      subst he
      exact ⟨0, Nat.succ_pos fuel, rfl, hmet, fun j hj => absurd hj (Nat.not_lt_zero j)⟩
    · rw [if_neg hmet] at h
      obtain ⟨k, hk, hek, hmet', hbefore⟩ := ih e.step e' h
      refine ⟨k + 1, Nat.succ_lt_succ hk, ?_, hmet', ?_⟩
      · rw [Function.iterate_succ_apply]; exact hek
      · intro j hj
        cases j with
        | zero => simpa using hmet
        | succ i =>
          rw [Function.iterate_succ_apply]
          exact hbefore i (Nat.lt_of_succ_lt_succ hj)

theorem stepUntilConditionsMet_of_first (conditions : List CONDITION) :
    ∀ (k : Nat) (e : Emulator),
      (Emulator.step^[k] e).areConditionsMet conditions = true →
      (∀ j, j < k → (Emulator.step^[j] e).areConditionsMet conditions = false) →
      ∀ fuel, k < fuel →
        Emulator.stepUntilConditionsMet conditions fuel e = some (Emulator.step^[k] e) := by
  intro k
  induction k with
  | zero =>
    intro e hmet _ fuel hfuel
    obtain ⟨n, rfl⟩ : ∃ n, fuel = n + 1 := ⟨fuel - 1, by omega⟩
    unfold Emulator.stepUntilConditionsMet
    rw [if_pos (by simpa using hmet)]
    rfl
  | succ k ih =>
    intro e hmet hbefore fuel hfuel
    obtain ⟨n, rfl⟩ : ∃ n, fuel = n + 1 := ⟨fuel - 1, by omega⟩
    have h0 : e.areConditionsMet conditions = false := hbefore 0 (Nat.succ_pos k)
    unfold Emulator.stepUntilConditionsMet
    rw [if_neg (by simp [h0]), Function.iterate_succ_apply]
    refine ih e.step ?_ ?_ n (by omega)
    · rw [← Function.iterate_succ_apply]; exact hmet
    · intro j hj
      rw [← Function.iterate_succ_apply]
      exact hbefore (j + 1) (Nat.succ_lt_succ hj)

/-- Claim C9: whenever the loop of `stepUntilConditionsMet` returns, it returns
the state after some number `k` of steps, the condition set holds in that state
and holds after no smaller number of steps; the loop does return (given fuel
beyond `k`) as soon as the condition set holds after some number of steps, at the
first such `k`; and when the condition set is empty or already holds it returns
the state it was given, having taken no step. -/
theorem stepUntilConditionsMet_minimal (conditions : List CONDITION) (e : Emulator) :
    (∀ fuel e', Emulator.stepUntilConditionsMet conditions fuel e = some e' →
      ∃ k, k < fuel ∧ e' = Emulator.step^[k] e
        ∧ e'.areConditionsMet conditions = true
        ∧ ∀ j, j < k → (Emulator.step^[j] e).areConditionsMet conditions = false)
    ∧ (∀ n, (Emulator.step^[n] e).areConditionsMet conditions = true →
      ∃ k, k ≤ n ∧ (Emulator.step^[k] e).areConditionsMet conditions = true
        ∧ (∀ j, j < k → (Emulator.step^[j] e).areConditionsMet conditions = false)
        ∧ ∀ fuel, k < fuel →
            Emulator.stepUntilConditionsMet conditions fuel e = some (Emulator.step^[k] e))
    ∧ (e.areConditionsMet conditions = true →
      ∀ fuel, Emulator.stepUntilConditionsMet conditions (fuel + 1) e = some e)
    ∧ (∀ fuel, Emulator.stepUntilConditionsMet [] (fuel + 1) e = some e) := by
  refine ⟨fun fuel e' h => stepUntilConditionsMet_some conditions fuel e e' h, ?_, ?_, ?_⟩
  · intro n hn
    have hex : ∃ m, (Emulator.step^[m] e).areConditionsMet conditions = true := ⟨n, hn⟩
    refine ⟨Nat.find hex, Nat.find_min' hex hn, Nat.find_spec hex, ?_, ?_⟩
    · intro j hj
      simpa using Nat.find_min hex hj
    · intro fuel hfuel
      refine stepUntilConditionsMet_of_first conditions _ e (Nat.find_spec hex) ?_ fuel hfuel
      intro j hj
      simpa using Nat.find_min hex hj
  · intro hmet fuel
    exact stepUntilConditionsMet_of_first conditions 0 e hmet
      (fun j hj => absurd hj (Nat.not_lt_zero j)) (fuel + 1) (Nat.succ_pos fuel)
  · intro fuel
    rfl

/-- Witness for C9 on `ADDI x1, x0, 5` with the condition "pc equals 4": the loop
returns the state after one step, and the condition does not hold before it. -/
theorem stepUntilConditionsMet_minimal_witness :
    ∃ k, k < 5 ∧ addiScenario.step = Emulator.step^[k] addiScenario
      ∧ addiScenario.step.areConditionsMet [pcIsFour] = true
      ∧ ∀ j, j < k → (Emulator.step^[j] addiScenario).areConditionsMet [pcIsFour] = false :=
  (stepUntilConditionsMet_minimal [pcIsFour] addiScenario).1 5 addiScenario.step rfl

/-- Claim C10: `stepMultiple` throws exactly when the step count is negative, and
when it throws the emulator is the one it was given: no step has run, so pc, the
registers and the execution counter are unchanged. -/
theorem stepMultiple_negative (e : Emulator) (n : Int) :
    (n < 0 → e.stepMultiple n = (Except.error "# of steps cannot be negative.", e))
    ∧ (n < 0 → (e.stepMultiple n).2.pc = e.pc ∧ (e.stepMultiple n).2.registers = e.registers
        ∧ (e.stepMultiple n).2.instructions_executed = e.instructions_executed)
    ∧ (∀ message, (e.stepMultiple n).1 = Except.error message → n < 0)
    ∧ (0 ≤ n → (e.stepMultiple n).1 = Except.ok ()) := by
  unfold Emulator.stepMultiple
  by_cases h : n < 0
  · simp [h]
  · have h' : 0 ≤ n := Int.not_lt.mp h
    simp [h, h']

/-- Witness for C10 at the step count -1 on a fresh emulator. -/
theorem stepMultiple_negative_witness :
    (addiScenario.stepMultiple (-1)).1 = Except.error "# of steps cannot be negative."
      ∧ (addiScenario.stepMultiple (-1)).2.pc = 0
      ∧ (addiScenario.stepMultiple (-1)).2.registers = List.replicate 32 0
      ∧ (addiScenario.stepMultiple (-1)).2.instructions_executed = 0 := by
  have h := stepMultiple_negative addiScenario (-1)
  have h1 := h.1 (by decide)
  have h2 := h.2.1 (by decide)
  exact ⟨by rw [h1], h2.1, h2.2.1, h2.2.2⟩


theorem stepLoop_eq_iterate (n : Nat) : ∀ e : Emulator, Emulator.stepLoop n e = Emulator.step^[n] e := by
  induction n with
  | zero => intro e; rfl
  | succ n ih =>
    intro e
    rw [Function.iterate_succ_apply]
    exact ih e.step

/-- Claim C11: for every state and every count `n ≥ 0`, `stepMultiple(n)` returns
normally and leaves exactly the state reached by `n` calls of `step` in
sequence; `stepMultiple(0)` leaves the state as it is and `stepMultiple(n + 1)`
leaves the state of `stepMultiple(n)` followed by one `step`; on the image
`ADDI x1, x0, 10 ; ADDI x2, x1, 20` from a fresh emulator at pc 0,
`stepMultiple(2)` leaves `registers[2] = 30`. -/
theorem stepMultiple_eq_iterate (e : Emulator) (n : Nat) :
    e.stepMultiple (n : Int) = (Except.ok (), Emulator.step^[n] e)
      ∧ e.stepMultiple 0 = (Except.ok (), e)
      ∧ (e.stepMultiple ((n : Int) + 1)).2 = (e.stepMultiple (n : Int)).2.step
      ∧ readReg (twoAddiScenario.stepMultiple 2).2.registers 2 = 30 := by
  have h : ∀ m : Nat, e.stepMultiple (m : Int) = (Except.ok (), Emulator.step^[m] e) := by
    intro m
    unfold Emulator.stepMultiple
    rw [if_neg (by omega), Int.toNat_ofNat, stepLoop_eq_iterate]
  refine ⟨h n, h 0, ?_, by decide⟩
  have h1 := h (n + 1)
  rw [Nat.cast_succ] at h1
  rw [h1, h n, Function.iterate_succ_apply']

theorem areConditionsMet_cons (e : Emulator) (c : CONDITION) (rest : List CONDITION) :
    e.areConditionsMet (c :: rest) = true ↔
      ((c.isPC = true → e.pc = c.targetValue)
        ∧ (c.isRegister = true → readReg e.registers c.registerNumber = c.targetValue))
      ∧ e.areConditionsMet rest = true := by
  have hdef : e.areConditionsMet (c :: rest) =
      (if c.isPC && e.pc != c.targetValue then false
       else if c.isRegister && readReg e.registers c.registerNumber != c.targetValue then false
       else e.areConditionsMet rest) := rfl
  rw [hdef]
  cases hp : c.isPC <;> cases hr : c.isRegister <;>
    by_cases h1 : e.pc = c.targetValue <;>
    by_cases h2 : readReg e.registers c.registerNumber = c.targetValue <;>
    simp [h1, h2]

/-- Claim C12: for every state and every list of conditions, `areConditionsMet`
returns true exactly when every condition of the list holds in the state, a
program-counter condition holding when pc equals its target value and a register
condition when `registers[registerNumber]` equals its target value; it returns
true for the empty list.  The function computes a truth value from the state and
assigns nothing, so the state is the same afterwards. -/
theorem areConditionsMet_iff (e : Emulator) (conditions : List CONDITION) :
    (e.areConditionsMet conditions = true ↔
      ∀ c ∈ conditions,
        (c.isPC = true → e.pc = c.targetValue)
          ∧ (c.isRegister = true → readReg e.registers c.registerNumber = c.targetValue))
      ∧ e.areConditionsMet [] = true := by
  refine ⟨?_, rfl⟩
  induction conditions with
  | nil => simp [Emulator.areConditionsMet]
  | cons c rest ih =>
    rw [areConditionsMet_cons, ih]
    simp


theorem toInt32_eq (a : Nat) (h : a < 2 ^ 32) :
    toInt32 a = if a < 2 ^ 31 then (a : Int) else (a : Int) - 2 ^ 32 := by
  unfold toInt32
  rw [Nat.mod_eq_of_lt h]

theorem executeBranch_eq (e : Emulator) (w : Nat) :
    e.executeBranch w =
      if (if w / 4096 % 8 = 0 then
            decide (readReg e.registers (w / 32768 % 32) = readReg e.registers (w / 1048576 % 32))
          else if w / 4096 % 8 = 1 then
            decide (readReg e.registers (w / 32768 % 32) ≠ readReg e.registers (w / 1048576 % 32))
          else if w / 4096 % 8 = 4 then
            decide (toInt32 (readReg e.registers (w / 32768 % 32))
              < toInt32 (readReg e.registers (w / 1048576 % 32)))
          else if w / 4096 % 8 = 5 then
            decide (toInt32 (readReg e.registers (w / 32768 % 32))
              ≥ toInt32 (readReg e.registers (w / 1048576 % 32)))
          else if w / 4096 % 8 = 6 then
            decide (readReg e.registers (w / 32768 % 32) < readReg e.registers (w / 1048576 % 32))
          else if w / 4096 % 8 = 7 then
            decide (readReg e.registers (w / 32768 % 32) ≥ readReg e.registers (w / 1048576 % 32))
          else false) = true
      then { e with pc := (e.pc + toUInt32 (BImm w)) % 2 ^ 32 }
      else { e with pc := (e.pc + 4) % 2 ^ 32 } := by
  unfold Emulator.executeBranch
  simp only [rs1_field, rs2_field, funct3_field]

/-- Claim C14: for every state whose registers hold 32-bit values and every word
with fields `rs1`, `rs2`, `funct3` passed to `executeBranch`, with `a`, `b` the
two source registers and `sa`, `sb` their two's-complement readings: when
`funct3` is 000 and `a = b`, or 001 and `a ≠ b`, or 100 and `sa < sb`, or 101 and
`sa ≥ sb`, or 110 and `a < b`, or 111 and `a ≥ b`, pc becomes
`(pc + BImm(word)) mod 2^32`; in every other case (the function codes 010 and 011
included) pc becomes `(pc + 4) mod 2^32`; the register file is left as it was. -/
theorem executeBranch_correct (e : Emulator) (w hi rs2 rs1 funct3 lo a b : Nat) (sa sb : Int)
    (hw : w = hi * 2 ^ 25 + rs2 * 2 ^ 20 + rs1 * 2 ^ 15 + funct3 * 2 ^ 12 + lo)
    (hrs2 : rs2 < 32) (hrs1 : rs1 < 32) (hf3 : funct3 < 8) (hlo : lo < 2 ^ 12)
    (ha : readReg e.registers rs1 = a) (hb : readReg e.registers rs2 = b)
    (ha32 : a < 2 ^ 32) (hb32 : b < 2 ^ 32)
    (hsa : sa = if a < 2 ^ 31 then (a : Int) else (a : Int) - 2 ^ 32)
    (hsb : sb = if b < 2 ^ 31 then (b : Int) else (b : Int) - 2 ^ 32) :
    ((funct3 = 0b000 ∧ a = b ∨ funct3 = 0b001 ∧ a ≠ b ∨ funct3 = 0b100 ∧ sa < sb
        ∨ funct3 = 0b101 ∧ sa ≥ sb ∨ funct3 = 0b110 ∧ a < b ∨ funct3 = 0b111 ∧ a ≥ b) →
      (e.executeBranch w).pc = (((e.pc : Int) + BImm w) % 2 ^ 32).toNat)
    ∧ (¬(funct3 = 0b000 ∧ a = b ∨ funct3 = 0b001 ∧ a ≠ b ∨ funct3 = 0b100 ∧ sa < sb
        ∨ funct3 = 0b101 ∧ sa ≥ sb ∨ funct3 = 0b110 ∧ a < b ∨ funct3 = 0b111 ∧ a ≥ b) →
      (e.executeBranch w).pc = (e.pc + 4) % 2 ^ 32)
    ∧ (e.executeBranch w).registers = e.registers := by
  have h12 : w / 4096 % 8 = funct3 := by omega
  have h15 : w / 32768 % 32 = rs1 := by omega
  have h20 : w / 1048576 % 32 = rs2 := by omega
  have hta : toInt32 a = sa := by rw [hsa]; exact toInt32_eq a ha32
  have htb : toInt32 b = sb := by rw [hsb]; exact toInt32_eq b hb32
  rw [executeBranch_eq, h12, h15, h20, ha, hb, hta, htb, ← toUInt32_add]
  refine ⟨?_, ?_, ?_⟩
  · intro hc
    rw [if_pos]
    interval_cases funct3 <;> simp_all
  · intro hc
    rw [if_neg]
    interval_cases funct3 <;> simp_all
  · split_ifs <;> rfl

/-- Witness for C14 on `BLT x1, x2, +8` (word `0x0020C463`) at pc 0 with
`registers[1] = 7` and `registers[2] = 9`: the branch is taken and pc becomes 8. -/
theorem executeBranch_correct_witness :
    (twoOperandScenario.executeBranch 0x0020C463).pc = 8
      ∧ (twoOperandScenario.executeBranch 0x0020C463).registers = twoOperandScenario.registers := by
  have h := executeBranch_correct twoOperandScenario 0x0020C463 0 2 1 4 0x463 7 9 7 9
    (by decide) (by decide) (by decide) (by decide) (by decide) (by decide) (by decide)
    (by decide) (by decide) (by decide) (by decide)
  exact ⟨(h.1 (by decide)).trans (by decide), h.2.2⟩


theorem funct7_field (w : Nat) : w >>> 25 = w / 33554432 := by
  rw [Nat.shiftRight_eq_div_pow]

theorem executeIType_sr (e : Emulator) (w : Nat) (hf3 : w / 4096 % 8 = 5) :
    e.executeIType w =
      { e with
        registers :=
          if w / 33554432 = 0b0100000 then
            writeReg e.registers (w / 128 % 32)
              (toUInt32 (toInt32 (readReg e.registers (w / 32768 % 32))
                >>> (toUInt32 (toInt32 w >>> I_IMM_OFFSET) % 2 ^ 5)))
          else if w / 33554432 = 0b0000000 then
            writeReg e.registers (w / 128 % 32)
              (readReg e.registers (w / 32768 % 32)
                >>> (toUInt32 (toInt32 w >>> I_IMM_OFFSET) % 2 ^ 5))
          else e.registers
        pc := (e.pc + 4) % 2 ^ 32 } := by
  unfold Emulator.executeIType
  simp only [funct3_field, rd_field, rs1_field, funct7_field, hf3]
  simp only [and_getLSBMask _ 5 (by decide)]
  simp

theorem executeRType_add (e : Emulator) (w : Nat) (hf3 : w / 4096 % 8 = 0) :
    e.executeRType w =
      { e with
        registers :=
          if w / 33554432 = 0b0100000 then
            writeReg e.registers (w / 128 % 32)
              (toUInt32 ((readReg e.registers (w / 32768 % 32) : Int)
                - (readReg e.registers (w / 1048576 % 32) : Int)))
          else if w / 33554432 = 0b0000000 then
            writeReg e.registers (w / 128 % 32)
              ((readReg e.registers (w / 32768 % 32)
                + readReg e.registers (w / 1048576 % 32)) % 2 ^ 32)
          else e.registers
        pc := (e.pc + 4) % 2 ^ 32 } := by
  unfold Emulator.executeRType
  simp only [funct3_field, rd_field, rs1_field, rs2_field, funct7_field, hf3]
  simp

theorem shiftAmount_eq (w : Nat) (h : w < 2 ^ 32) :
    toUInt32 (toInt32 w >>> I_IMM_OFFSET) % 2 ^ 5 = w / 2 ^ 20 % 32 := by
  rw [signedImm_eq w h]
  unfold toUInt32
  split_ifs <;> omega


/-- Claim C15 (counterexample): the word `0x02115093` is a register-immediate
word with funct3 101, rd 1, rs1 2, shift amount 1 and secondary function code
0000001, which is not 0100000; register 2 holds 8, so the claim has
`registers[1] = 8 >> 1 = 4` after `executeIType`, but the code writes no register
and `registers[1]` is still 0. -/
theorem executeIType_shift_other_code :
    0x02115093 % 2 ^ 7 = OP_IMM ∧ 0x02115093 / 2 ^ 12 % 8 = SR_FUNCT3
      ∧ 0x02115093 / 2 ^ 7 % 32 = 1 ∧ 0x02115093 / 2 ^ 15 % 32 = 2
      ∧ 0x02115093 / 2 ^ 20 % 32 = 1 ∧ 0x02115093 / 2 ^ 25 = 0b0000001
      ∧ readReg shiftScenario.registers 2 = 8
      ∧ readReg (shiftScenario.executeIType 0x02115093).registers 1 = 0
      ∧ readReg (shiftScenario.executeIType 0x02115093).registers 1
          ≠ readReg shiftScenario.registers 2 / 2 ^ 1
      ∧ (shiftScenario.executeIType 0x02115093).registers = shiftScenario.registers := by
  decide

/-- Claim C15 (amended): for every state with its 32 registers and every
register-immediate word with funct3 101, fields `rd`, `rs1`, shift amount
`shamt` (the low 5 bits of the immediate) and secondary function code `funct7`,
with `a < 2^32` the value of `registers[rs1]` and `sa` its two's-complement
reading: when `funct7` is 0100000, `executeIType` writes to `registers[rd]` the
arithmetic shift, the floor of `sa / 2^shamt` modulo 2^32; when `funct7` is
0000000 it writes the logical shift `a / 2^shamt`; for every other `funct7` it
writes no register. -/
theorem executeIType_shift_right (e : Emulator) (w rd rs1 shamt funct7 a : Nat) (sa : Int)
    (hlen : e.registers.length = REG_COUNT)
    (hrd : rd < 32) (hrs1 : rs1 < 32) (hsh : shamt < 32) (hf7 : funct7 < 128)
    (hw : w = funct7 * 2 ^ 25 + shamt * 2 ^ 20 + rs1 * 2 ^ 15 + 0b101 * 2 ^ 12 + rd * 2 ^ 7
      + 0b0010011)
    (ha : readReg e.registers rs1 = a) (ha32 : a < 2 ^ 32)
    (hsa : sa = if a < 2 ^ 31 then (a : Int) else (a : Int) - 2 ^ 32) :
    (funct7 = 0b0100000 →
      readReg (e.executeIType w).registers rd = ((sa / 2 ^ shamt) % 2 ^ 32).toNat)
    ∧ (funct7 = 0b0000000 → readReg (e.executeIType w).registers rd = a / 2 ^ shamt)
    ∧ (funct7 ≠ 0b0100000 → funct7 ≠ 0b0000000 → (e.executeIType w).registers = e.registers) := by
  have hlt : w < 2 ^ 32 := by omega
  have h12 : w / 4096 % 8 = 5 := by omega
  have h7 : w / 128 % 32 = rd := by omega
  have h15 : w / 32768 % 32 = rs1 := by omega
  have h25 : w / 33554432 = funct7 := by omega
  have hsh' : toUInt32 (toInt32 w >>> I_IMM_OFFSET) % 2 ^ 5 = shamt := by
    rw [shiftAmount_eq w hlt]; omega
  have hta : toInt32 a = sa := by rw [hsa]; exact toInt32_eq a ha32
  have hrdlen : rd < e.registers.length := by rw [hlen]; exact hrd
  rw [executeIType_sr e w h12, h7, h15, h25, hsh', ha, hta]
  refine ⟨?_, ?_, ?_⟩
  · intro h
    show readReg (if _ then _ else _) _ = _
    rw [if_pos h, readReg_writeReg_same _ _ _ hrdlen, Int.shiftRight_eq_div_pow]
    unfold toUInt32
    push_cast
    rfl
  · intro h
    have hne : ¬ funct7 = 0b0100000 := by omega
    show readReg (if _ then _ else _) _ = _
    rw [if_neg hne, if_pos h, readReg_writeReg_same _ _ _ hrdlen, Nat.shiftRight_eq_div_pow]
  · intro h1 h2
    show (if _ then _ else _) = _
    rw [if_neg h1, if_neg h2]

/-- Witness for the amended C15 on `SRAI x1, x3, 4` (word `0x4041D093`) with
`registers[3] = 0xFFFFFFF0`: the sign is propagated and register 1 becomes
`0xFFFFFFFF`. -/
theorem executeIType_shift_right_witness :
    readReg (shiftScenario.executeIType 0x4041D093).registers 1 = 0xFFFFFFFF := by
  have h := executeIType_shift_right shiftScenario 0x4041D093 1 3 4 0b0100000 0xFFFFFFF0 (-16)
    (by decide) (by decide) (by decide) (by decide) (by decide) (by decide) (by decide)
    (by decide) (by decide)
  exact (h.1 rfl).trans (by decide)

/-- Claim C16: for every state with its 32 registers and every register-register
word with funct3 000 and fields `rd`, `rs1`, `rs2` (which may coincide), with
`a`, `b` the values of `registers[rs1]`, `registers[rs2]` before the
instruction: `executeRType` leaves `registers[rd] = (a - b) mod 2^32` when the
secondary function code is 0100000 and `registers[rd] = (a + b) mod 2^32` when
it is 0000000; every register other than `rd` is unchanged and pc becomes
`(pc + 4) mod 2^32`. -/
theorem executeRType_add_sub (e : Emulator) (w rd rs1 rs2 funct7 a b : Nat)
    (hlen : e.registers.length = REG_COUNT)
    (hrd : rd < 32) (hrs1 : rs1 < 32) (hrs2 : rs2 < 32)
    (hw : w = funct7 * 2 ^ 25 + rs2 * 2 ^ 20 + rs1 * 2 ^ 15 + 0b000 * 2 ^ 12 + rd * 2 ^ 7
      + 0b0110011)
    (ha : readReg e.registers rs1 = a) (hb : readReg e.registers rs2 = b) :
    (funct7 = 0b0100000 →
      readReg (e.executeRType w).registers rd = (((a : Int) - (b : Int)) % 2 ^ 32).toNat)
    ∧ (funct7 = 0b0000000 → readReg (e.executeRType w).registers rd = (a + b) % 2 ^ 32)
    ∧ (∀ j, j ≠ rd → readReg (e.executeRType w).registers j = readReg e.registers j)
    ∧ (e.executeRType w).pc = (e.pc + 4) % 2 ^ 32 := by
  have h12 : w / 4096 % 8 = 0 := by omega
  have h7 : w / 128 % 32 = rd := by omega
  have h15 : w / 32768 % 32 = rs1 := by omega
  have h20 : w / 1048576 % 32 = rs2 := by omega
  have h25 : w / 33554432 = funct7 := by omega
  have hrdlen : rd < e.registers.length := by rw [hlen]; exact hrd
  rw [executeRType_add e w h12, h7, h15, h20, h25, ha, hb]
  refine ⟨?_, ?_, ?_, rfl⟩
  · intro h
    show readReg (if _ then _ else _) _ = _
    rw [if_pos h, readReg_writeReg_same _ _ _ hrdlen]
    rfl
  · intro h
    have hne : ¬ funct7 = 0b0100000 := by omega
    show readReg (if _ then _ else _) _ = _
    rw [if_neg hne, if_pos h, readReg_writeReg_same _ _ _ hrdlen]
  · intro j hj
    show readReg (if _ then _ else _) _ = _
    split_ifs
    · exact readReg_writeReg_other _ _ _ _ hj
    · exact readReg_writeReg_other _ _ _ _ hj
    · rfl

/-- Witness for C16 on `SUB x1, x1, x2` (word `0x402080B3`, `rd = rs1`) with
`registers[1] = 7` and `registers[2] = 9`: register 1 becomes `0xFFFFFFFE`. -/
theorem executeRType_add_sub_witness :
    readReg (twoOperandScenario.executeRType 0x402080B3).registers 1 = 0xFFFFFFFE
      ∧ readReg (twoOperandScenario.executeRType 0x402080B3).registers 2 = 9
      ∧ (twoOperandScenario.executeRType 0x402080B3).pc = 4 := by
  have h := executeRType_add_sub twoOperandScenario 0x402080B3 1 1 2 0b0100000 7 9
    (by decide) (by decide) (by decide) (by decide) (by decide) (by decide) (by decide)
  exact ⟨(h.1 rfl).trans (by decide), (h.2.2.1 2 (by decide)).trans (by decide),
    h.2.2.2.trans (by decide)⟩


theorem step_fixed_of_no_dispatch (e : Emulator)
    (h1 : e.fetch % 128 ≠ 19) (h2 : e.fetch % 128 ≠ 51) (h3 : e.fetch % 128 ≠ 55)
    (h4 : e.fetch % 128 ≠ 23) (h5 : e.fetch % 128 ≠ 103) : e.step = e := by
  have hd : e.dispatch e.fetch = none := by
    simp [Emulator.dispatch, opcode_field, h1, h2, h3, h4, h5]
  simp [Emulator.step, hd]

theorem iterate_step_of_fixed (e : Emulator) (h : e.step = e) (n : Nat) :
    Emulator.step^[n] e = e :=
  Function.iterate_fixed h n

/-- Claim C17: for every state, fields `rd`, `rs1`, a 5-bit field `x` and a
secondary function code `funct7` other than 0000000 and 0100000: `executeRType`
on the register-register word with funct3 000, and `executeIType` on the
register-immediate word with funct3 101, each leave the register file as it was
and set pc to `(pc + 4) mod 2^32`; and when such a word is the little-endian word
at pc, one `step` does the same and raises the execution counter by one. -/
theorem unknown_funct_nonfatal (e : Emulator) (w funct7 x rs1 rd : Nat)
    (hne0 : funct7 ≠ 0b0000000) (hne32 : funct7 ≠ 0b0100000)
    (hx : x < 32) (hrs1 : rs1 < 32) (hrd : rd < 32)
    (hw : w = funct7 * 2 ^ 25 + x * 2 ^ 20 + rs1 * 2 ^ 15 + 0b000 * 2 ^ 12 + rd * 2 ^ 7
          + 0b0110011
        ∨ w = funct7 * 2 ^ 25 + x * 2 ^ 20 + rs1 * 2 ^ 15 + 0b101 * 2 ^ 12 + rd * 2 ^ 7
          + 0b0010011) :
    (w % 2 ^ 7 = OP_REG →
      (e.executeRType w).registers = e.registers ∧ (e.executeRType w).pc = (e.pc + 4) % 2 ^ 32)
    ∧ (w % 2 ^ 7 = OP_IMM →
      (e.executeIType w).registers = e.registers ∧ (e.executeIType w).pc = (e.pc + 4) % 2 ^ 32)
    ∧ (e.program e.pc % 256 + e.program ((e.pc + 1) % 2 ^ 32) % 256 * 2 ^ 8
          + e.program ((e.pc + 2) % 2 ^ 32) % 256 * 2 ^ 16
          + e.program ((e.pc + 3) % 2 ^ 32) % 256 * 2 ^ 24 = w →
      e.step.registers = e.registers ∧ e.step.pc = (e.pc + 4) % 2 ^ 32
        ∧ e.step.instructions_executed = e.instructions_executed + 1) := by
  have h25 : w / 33554432 = funct7 := by omega
  have hR : w % 2 ^ 7 = OP_REG →
      e.executeRType w = { e with pc := (e.pc + 4) % 2 ^ 32 } := by
    intro hop
    have h12 : w / 4096 % 8 = 0 := by
      rcases hw with hw | hw
      · omega
      · exfalso; norm_num at hop; omega
    rw [executeRType_add e w h12, h25, if_neg hne32, if_neg hne0]
  have hI : w % 2 ^ 7 = OP_IMM →
      e.executeIType w = { e with pc := (e.pc + 4) % 2 ^ 32 } := by
    intro hop
    have h12 : w / 4096 % 8 = 5 := by
      rcases hw with hw | hw
      · exfalso; norm_num at hop; omega
      · omega
    rw [executeIType_sr e w h12, h25, if_neg hne32, if_neg hne0]
  refine ⟨fun hop => by rw [hR hop]; exact ⟨rfl, rfl⟩,
    fun hop => by rw [hI hop]; exact ⟨rfl, rfl⟩, ?_⟩
  intro hword
  have hfetch : e.fetch = w := by rw [fetch_eq]; exact hword
  rcases hw with hw | hw
  · have hop : w % 2 ^ 7 = OP_REG := by norm_num; omega
    have hd : e.dispatch e.fetch = some (e.executeRType w) := by
      rw [hfetch]
      have : w % 128 = 51 := by omega
      simp [Emulator.dispatch, opcode_field, this]
    rw [step_of_dispatch e _ hd, hR hop]
    exact ⟨rfl, rfl, rfl⟩
  · have hop : w % 2 ^ 7 = OP_IMM := by norm_num; omega
    have hd : e.dispatch e.fetch = some (e.executeIType w) := by
      rw [hfetch]
      have : w % 128 = 19 := by omega
      simp [Emulator.dispatch, opcode_field, this]
    rw [step_of_dispatch e _ hd, hI hop]
    exact ⟨rfl, rfl, rfl⟩

/-- Witness for C17 on the register-register word `0x02208033` (funct3 000,
secondary function code 0000001) at pc 0 of a fresh emulator: the registers stay
zero, pc becomes 4 and one instruction is counted. -/
theorem unknown_funct_nonfatal_witness :
    unknownFunctScenario.step.registers = List.replicate 32 0
      ∧ unknownFunctScenario.step.pc = 4
      ∧ unknownFunctScenario.step.instructions_executed = 1 := by
  have h := (unknown_funct_nonfatal unknownFunctScenario 0x02208033 1 2 1 0 (by decide)
    (by decide) (by decide) (by decide) (by decide) (Or.inl (by decide))).2.2 (by decide)
  exact ⟨h.1, h.2.1.trans (by decide), h.2.2.trans (by decide)⟩

/-- Claim C18: when the little-endian word `w` at pc has an opcode that `step`
does not dispatch, then for every `n ≥ 0` the state after `n` calls of `step`,
and the state after `stepMultiple(n)`, is the state at the fault: same pc, same
register file, same execution counter. -/
theorem step_halted_noop (e : Emulator) (w : Nat) (n : Nat)
    (hword : e.program e.pc % 256 + e.program ((e.pc + 1) % 2 ^ 32) % 256 * 2 ^ 8
        + e.program ((e.pc + 2) % 2 ^ 32) % 256 * 2 ^ 16
        + e.program ((e.pc + 3) % 2 ^ 32) % 256 * 2 ^ 24 = w)
    (hIMM : w % 2 ^ 7 ≠ OP_IMM) (hREG : w % 2 ^ 7 ≠ OP_REG) (hLUI : w % 2 ^ 7 ≠ OP_LUI)
    (hAUIPC : w % 2 ^ 7 ≠ OP_AUIPC) (hJALR : w % 2 ^ 7 ≠ OP_JALR) :
    (Emulator.step^[n] e).pc = e.pc ∧ (Emulator.step^[n] e).registers = e.registers
      ∧ (Emulator.step^[n] e).instructions_executed = e.instructions_executed
      ∧ Emulator.step^[n] e = e
      ∧ e.stepMultiple (n : Int) = (Except.ok (), e) := by
  have hfetch : e.fetch = w := by rw [fetch_eq]; exact hword
  norm_num at hIMM hREG hLUI hAUIPC hJALR
  have hfix : e.step = e :=
    step_fixed_of_no_dispatch e (by rw [hfetch]; exact hIMM) (by rw [hfetch]; exact hREG)
      (by rw [hfetch]; exact hLUI) (by rw [hfetch]; exact hAUIPC) (by rw [hfetch]; exact hJALR)
  have hit := iterate_step_of_fixed e hfix n
  have hsm : e.stepMultiple (n : Int) = (Except.ok (), e) := by
    unfold Emulator.stepMultiple
    rw [if_neg (by omega), Int.toNat_ofNat, stepLoop_eq_iterate, hit]
  rw [hit]
  exact ⟨rfl, rfl, rfl, rfl, hsm⟩

/-- Witness for C18: a fresh emulator on a word with opcode 1100011 is the same
after seven further steps. -/
theorem step_halted_noop_witness :
    (Emulator.step^[7] unknownOpcodeScenario).pc = 0
      ∧ (Emulator.step^[7] unknownOpcodeScenario).registers = List.replicate 32 0
      ∧ (Emulator.step^[7] unknownOpcodeScenario).instructions_executed = 0 := by
  have h := step_halted_noop unknownOpcodeScenario 0x00000463 7 (by decide) (by decide)
    (by decide) (by decide) (by decide) (by decide)
  exact ⟨h.1, h.2.1, h.2.2.1⟩

/-- Claim C19: `registers[0] = 0` is not preserved by `step`: on the image
`ADDI x0, x0, 5 ; ADDI x1, x0, 0` a fresh emulator has `registers[0] = 0`, after
one `step` `registers[0] = 5`, and the second instruction, which reads x0 as its
source, leaves `registers[1] = 5`. -/
theorem register_zero_not_hardwired :
    readReg writeZeroScenario.registers 0 = 0
      ∧ writeZeroScenario.fetch = 0x00500013
      ∧ readReg writeZeroScenario.step.registers 0 = 5
      ∧ readReg writeZeroScenario.step.registers 0 ≠ 0
      ∧ writeZeroScenario.step.fetch = 0x00000093
      ∧ readReg writeZeroScenario.step.step.registers 1 = 5 := by
  decide

/-- Claim C20: when the little-endian word `w` at pc has an opcode that `step`
does not dispatch and the condition set does not hold in the current state, then
after any number `n` of iterations the state is the same and the condition set
still does not hold, and the loop of `stepUntilConditionsMet` returns for no
amount of fuel. -/
theorem stepUntilConditionsMet_diverges (e : Emulator) (w : Nat)
    (conditions : List CONDITION)
    (hword : e.program e.pc % 256 + e.program ((e.pc + 1) % 2 ^ 32) % 256 * 2 ^ 8
        + e.program ((e.pc + 2) % 2 ^ 32) % 256 * 2 ^ 16
        + e.program ((e.pc + 3) % 2 ^ 32) % 256 * 2 ^ 24 = w)
    (hIMM : w % 2 ^ 7 ≠ OP_IMM) (hREG : w % 2 ^ 7 ≠ OP_REG) (hLUI : w % 2 ^ 7 ≠ OP_LUI)
    (hAUIPC : w % 2 ^ 7 ≠ OP_AUIPC) (hJALR : w % 2 ^ 7 ≠ OP_JALR)
    (hmet : e.areConditionsMet conditions = false) :
    (∀ n, Emulator.step^[n] e = e
        ∧ (Emulator.step^[n] e).areConditionsMet conditions = false)
      ∧ ∀ fuel, Emulator.stepUntilConditionsMet conditions fuel e = none := by
  have hfetch : e.fetch = w := by rw [fetch_eq]; exact hword
  norm_num at hIMM hREG hLUI hAUIPC hJALR
  have hfix : e.step = e :=
    step_fixed_of_no_dispatch e (by rw [hfetch]; exact hIMM) (by rw [hfetch]; exact hREG)
      (by rw [hfetch]; exact hLUI) (by rw [hfetch]; exact hAUIPC) (by rw [hfetch]; exact hJALR)
  refine ⟨fun n => ?_, fun fuel => ?_⟩
  · rw [iterate_step_of_fixed e hfix n]
    exact ⟨rfl, hmet⟩
  · induction fuel with
    | zero => rfl
    | succ fuel ih =>
      unfold Emulator.stepUntilConditionsMet
      rw [hmet, hfix]
      simpa using ih

/-- Witness for C20: a fresh emulator on a word with opcode 1100011 and the
condition "pc equals 4" does not return within 100 iterations. -/
theorem stepUntilConditionsMet_diverges_witness :
    Emulator.stepUntilConditionsMet [pcIsFour] 100 unknownOpcodeScenario = none :=
  (stepUntilConditionsMet_diverges unknownOpcodeScenario 0x00000463 [pcIsFour] (by decide)
    (by decide) (by decide) (by decide) (by decide) (by decide) (by decide)).2 100


theorem digitChar_props (d : Nat) (h : d < 10) :
    ((Nat.digitChar d).isDigit = true ∧ isspace (Nat.digitChar d) = false
      ∧ Nat.digitChar d ≠ '-' ∧ Nat.digitChar d ≠ '+')
      ∧ (Nat.digitChar d).toNat - 48 = d := by
  interval_cases d <;> decide

theorem toDigitsCore_spec (fuel : Nat) :
    ∀ (n : Nat) (ds : List Char), n < fuel →
      (∀ c ∈ ds, c.isDigit = true ∧ isspace c = false ∧ c ≠ '-' ∧ c ≠ '+') →
      (∀ c ∈ Nat.toDigitsCore 10 fuel n ds,
          c.isDigit = true ∧ isspace c = false ∧ c ≠ '-' ∧ c ≠ '+')
        ∧ Nat.toDigitsCore 10 fuel n ds ≠ []
        ∧ (Nat.toDigitsCore 10 fuel n ds).foldl (fun acc c => 10 * acc + (c.toNat - 48)) 0
            = ds.foldl (fun acc c => 10 * acc + (c.toNat - 48)) n := by
  induction fuel with
  | zero => intro n ds h; exact absurd h (Nat.not_lt_zero n)
  | succ fuel ih =>
    intro n ds hn hds
    have hd := digitChar_props (n % 10) (Nat.mod_lt n (by decide))
    have hds' : ∀ c ∈ Nat.digitChar (n % 10) :: ds,
        c.isDigit = true ∧ isspace c = false ∧ c ≠ '-' ∧ c ≠ '+' := by
      intro c hc
      rcases List.mem_cons.mp hc with rfl | hc
      · exact hd.1
      · exact hds c hc
    unfold Nat.toDigitsCore
    by_cases h0 : n / 10 = 0
    · simp only [h0, if_true]
      refine ⟨hds', List.cons_ne_nil _ _, ?_⟩
      rw [List.foldl_cons, hd.2]
      congr 1
      omega
    · simp only [h0, if_false]
      obtain ⟨h1, h2, h3⟩ := ih (n / 10) (Nat.digitChar (n % 10) :: ds) (by omega) hds'
      refine ⟨h1, h2, ?_⟩
      rw [h3, List.foldl_cons, hd.2]
      congr 1
      omega

theorem stoi_of_digits (l : List Char) (hne : l ≠ [])
    (hall : ∀ c ∈ l, c.isDigit = true ∧ isspace c = false ∧ c ≠ '-' ∧ c ≠ '+')
    (hval : l.foldl (fun acc c => 10 * acc + (c.toNat - 48)) 0 < 2 ^ 31) :
    stoi l = Except.ok ((l.foldl (fun acc c => 10 * acc + (c.toNat - 48)) 0 : Nat) : Int) := by
  obtain ⟨c, rest, rfl⟩ := List.exists_cons_of_ne_nil hne
  have hc := hall c (List.mem_cons_self c rest)
  have htake : (c :: rest).takeWhile Char.isDigit = c :: rest :=
    List.takeWhile_eq_self_iff.mpr (fun x hx => (hall x hx).1)
  have hdrop : (c :: rest).dropWhile isspace = c :: rest := by
    rw [List.dropWhile_cons_of_neg]
    simp [hc.2.1]
  unfold stoi
  simp only [hdrop, hc.2.2.1, hc.2.2.2, or_self, if_false, htake, decide_False]
  rw [if_neg (List.cons_ne_nil c rest)]
  simp only [Bool.false_eq_true, if_false]
  rw [if_neg]
  omega

theorem toDigits_spec (N : Nat) :
    (∀ c ∈ Nat.toDigits 10 N, c.isDigit = true ∧ isspace c = false ∧ c ≠ '-' ∧ c ≠ '+')
      ∧ Nat.toDigits 10 N ≠ []
      ∧ (Nat.toDigits 10 N).foldl (fun acc c => 10 * acc + (c.toNat - 48)) 0 = N := by
  have h := toDigitsCore_spec (N + 1) N [] (Nat.lt_succ_self N)
    (fun c hc => absurd hc (List.not_mem_nil c))
  exact ⟨h.1, h.2.1, h.2.2⟩

theorem stoi_repr (N : Nat) (h : N < 2 ^ 31) : stoi (Nat.toDigits 10 N) = Except.ok (N : Int) := by
  obtain ⟨h1, h2, h3⟩ := toDigits_spec N
  have := stoi_of_digits (Nat.toDigits 10 N) h2 h1 (by rw [h3]; exact h)
  rw [h3] at this
  exact this

theorem data_x_repr (N : Nat) : ("x" ++ Nat.repr N).data = 'x' :: Nat.toDigits 10 N := by
  rw [String.data_append]
  rfl

/-- Claim C13: whatever the table of ABI names, `registerNameToRegisterIndex`
resolves the name made of `x` and the decimal numeral of `N` to `N` for every
`N` in 0..31, throws `invalid_argument` with the message "Specified register does
not exist" for every `N` in 32..2^31-1, and resolves both "s0" and "fp" to 8. -/
theorem registerNameToRegisterIndex_correct (abi_register_names : List String) :
    (∀ N, N < 32 →
      registerNameToRegisterIndex abi_register_names ("x" ++ Nat.repr N) = Except.ok N)
    ∧ (∀ N, 32 ≤ N → N < 2 ^ 31 →
      registerNameToRegisterIndex abi_register_names ("x" ++ Nat.repr N)
        = Except.error (Exception.invalid_argument "Specified register does not exist"))
    ∧ registerNameToRegisterIndex abi_register_names "s0" = Except.ok 8
    ∧ registerNameToRegisterIndex abi_register_names "fp" = Except.ok 8 := by
  have hbody : ∀ N, N < 2 ^ 31 →
      registerNameToRegisterIndexBody abi_register_names ("x" ++ Nat.repr N)
        = if (N : Int) < 0 ∨ (N : Int) > (REG_COUNT : Int) - 1 then
            Except.error (Exception.invalid_argument "Specified register does not exist")
          else Except.ok (N : Int).toNat := by
    intro N hN
    unfold registerNameToRegisterIndexBody
    simp only [data_x_repr, List.head?_cons, List.tail_cons, if_true, stoi_repr N hN]
  refine ⟨?_, ?_, ?_, ?_⟩
  · intro N hN
    unfold registerNameToRegisterIndex
    rw [hbody N (by omega), if_neg (by simp; omega)]
    simp
  · intro N hN hN'
    unfold registerNameToRegisterIndex
    rw [hbody N hN', if_pos (by simp; omega)]
  · simp [registerNameToRegisterIndex, registerNameToRegisterIndexBody]
  · simp [registerNameToRegisterIndex, registerNameToRegisterIndexBody]

/-- Witness for C13 with the RV32I ABI names as the table: "x17" resolves to 17,
"x32" is rejected, "s0" and "fp" resolve to 8. -/
theorem registerNameToRegisterIndex_correct_witness :
    registerNameToRegisterIndex exampleAbiNames "x17" = Except.ok 17
      ∧ registerNameToRegisterIndex exampleAbiNames "x32"
          = Except.error (Exception.invalid_argument "Specified register does not exist")
      ∧ registerNameToRegisterIndex exampleAbiNames "fp"
          = registerNameToRegisterIndex exampleAbiNames "s0" := by
  have h := registerNameToRegisterIndex_correct exampleAbiNames
  refine ⟨?_, ?_, ?_⟩
  · have h17 := h.1 17 (by decide)
    have e17 : "x" ++ Nat.repr 17 = "x17" := by decide
    rw [e17] at h17
    exact h17
  · have h32 := h.2.1 32 (by decide) (by decide)
    have e32 : "x" ++ Nat.repr 32 = "x32" := by decide
    rw [e32] at h32
    exact h32
  · rw [h.2.2.1, h.2.2.2]

end emulation
